import Mathlib

/-!
Verification of the bolt sidecar / CLI core against its specification.

Each definition below is a shallow embedding of a function of the repository:
machine integers are modelled as `Nat` with explicit `% 2 ^ w` reductions at
every Rust operation whose result is truncated to `w` bits (Rust release-mode
wrapping semantics), fallible functions return `Except`/`Option`, and byte
strings are `List Nat` (each element a byte value).
-/

namespace Sha256

/-! SHA-256 (FIPS 180-4) over byte lists, words as `Nat` reduced mod `2 ^ 32`.
This is the hash used by `sha2::Sha256` in the repository's digest methods. -/

/-- Two to the 32, the modulus of SHA-256 word arithmetic. -/
def M32 : Nat := 4294967296

/-- Right-rotation of a 32-bit word by `n`. -/
def rotr (n x : Nat) : Nat := (x / 2 ^ n + x % 2 ^ n * 2 ^ (32 - n)) % M32

/-- Logical right shift of a 32-bit word by `n`. -/
def shr (n x : Nat) : Nat := x / 2 ^ n

/-- Bitwise complement of a 32-bit word. -/
def not32 (x : Nat) : Nat := Nat.xor x 4294967295

/-- The `Ch` function of the SHA-256 round. -/
def ch (x y z : Nat) : Nat := Nat.xor (Nat.land x y) (Nat.land (not32 x) z)

/-- The `Maj` function of the SHA-256 round. -/
def maj (x y z : Nat) : Nat :=
  Nat.xor (Nat.xor (Nat.land x y) (Nat.land x z)) (Nat.land y z)

/-- The big Sigma-0 function. -/
def bigS0 (x : Nat) : Nat := Nat.xor (Nat.xor (rotr 2 x) (rotr 13 x)) (rotr 22 x)

/-- The big Sigma-1 function. -/
def bigS1 (x : Nat) : Nat := Nat.xor (Nat.xor (rotr 6 x) (rotr 11 x)) (rotr 25 x)

/-- The small sigma-0 message-schedule function. -/
def smallS0 (x : Nat) : Nat := Nat.xor (Nat.xor (rotr 7 x) (rotr 18 x)) (shr 3 x)

/-- The small sigma-1 message-schedule function. -/
def smallS1 (x : Nat) : Nat := Nat.xor (Nat.xor (rotr 17 x) (rotr 19 x)) (shr 10 x)

/-- The 64 SHA-256 round constants (FIPS 180-4 §4.2.2, written in decimal). -/
def K : List Nat :=
  [1116352408, 1899447441, 3049323471, 3921009573, 961987163, 1508970993,
   2453635748, 2870763221, 3624381080, 310598401, 607225278, 1426881987,
   1925078388, 2162078206, 2614888103, 3248222580, 3835390401, 4022224774,
   264347078, 604807628, 770255983, 1249150122, 1555081692, 1996064986,
   2554220882, 2821834349, 2952996808, 3210313671, 3336571891, 3584528711,
   113926993, 338241895, 666307205, 773529912, 1294757372, 1396182291,
   1695183700, 1986661051, 2177026350, 2456956037, 2730485921, 2820302411,
   3259730800, 3345764771, 3516065817, 3600352804, 4094571909, 275423344,
   430227734, 506948616, 659060556, 883997877, 958139571, 1322822218,
   1537002063, 1747873779, 1955562222, 2024104815, 2227730452, 2361852424,
   2428436474, 2756734187, 3204031479, 3329325298]

/-- The eight working words of the SHA-256 state. -/
structure Hs where
  a : Nat
  b : Nat
  c : Nat
  d : Nat
  e : Nat
  f : Nat
  g : Nat
  h : Nat
deriving DecidableEq, Repr

/-- The SHA-256 initial hash value (FIPS 180-4 §5.3.3, written in decimal). -/
def initH : Hs :=
  { a := 1779033703, b := 3144134277, c := 1013904242, d := 2773480762,
    e := 1359893119, f := 2600822924, g := 528734635, h := 1541459225 }

/-- Group a byte list into big-endian 32-bit words (trailing bytes dropped;
inputs are always a multiple of four bytes long here). -/
def bytesToWords : List Nat → List Nat
  | b0 :: b1 :: b2 :: b3 :: rest =>
      (b0 * 16777216 + b1 * 65536 + b2 * 256 + b3) :: bytesToWords rest
  | _ => []

/-- One extension step of the message schedule: append word `w[i]` computed
from `w[i-16]`, `w[i-15]`, `w[i-7]`, `w[i-2]`. -/
def scheduleStep (w : List Nat) : List Nat :=
  w ++ [(w.getD (w.length - 16) 0 + smallS0 (w.getD (w.length - 15) 0) +
         w.getD (w.length - 7) 0 + smallS1 (w.getD (w.length - 2) 0)) % M32]

/-- Extend the 16 block words to the 64 scheduled words. -/
def schedule (w0 : List Nat) : List Nat :=
  (List.range 48).foldl (fun w _ => scheduleStep w) w0

/-- One SHA-256 compression round, consuming a `(round constant, word)` pair. -/
def round (s : Hs) (kw : Nat × Nat) : Hs :=
  let t1 := (s.h + bigS1 s.e + ch s.e s.f s.g + kw.1 + kw.2) % M32
  let t2 := (bigS0 s.a + maj s.a s.b s.c) % M32
  { a := (t1 + t2) % M32, b := s.a, c := s.b, d := s.c,
    e := (s.d + t1) % M32, f := s.e, g := s.f, h := s.g }

/-- Compress one 64-byte block into the running state. -/
def compressBlock (s : Hs) (block : List Nat) : Hs :=
  let w := schedule (bytesToWords block)
  let t := (K.zip w).foldl round s
  { a := (s.a + t.a) % M32, b := (s.b + t.b) % M32, c := (s.c + t.c) % M32,
    d := (s.d + t.d) % M32, e := (s.e + t.e) % M32, f := (s.f + t.f) % M32,
    g := (s.g + t.g) % M32, h := (s.h + t.h) % M32 }

/-- A natural number as `n` big-endian bytes. -/
def natToBeBytes : Nat → Nat → List Nat
  | 0, _ => []
  | n + 1, x => natToBeBytes n (x / 256) ++ [x % 256]

/-- SHA-256 padding: a `0x80` byte, zeros to 56 mod 64, then the bit length
as eight big-endian bytes. -/
def pad (msg : List Nat) : List Nat :=
  let z := (64 + 56 - (msg.length + 1) % 64) % 64
  msg ++ [128] ++ List.replicate z 0 ++ natToBeBytes 8 (msg.length * 8)

/-- Split a byte list into 64-byte blocks, with explicit fuel so the
recursion is structural (the fuel is always the list's length here). -/
def chunk64Go : Nat → List Nat → List (List Nat)
  | 0, _ => []
  | _, [] => []
  | fuel + 1, x :: rest => ((x :: rest).take 64) :: chunk64Go fuel ((x :: rest).drop 64)

/-- Split a byte list into 64-byte blocks. -/
def chunk64 (l : List Nat) : List (List Nat) := chunk64Go l.length l

/-- A 32-bit word as four big-endian bytes. -/
def wordBytes (x : Nat) : List Nat :=
  [x / 16777216 % 256, x / 65536 % 256, x / 256 % 256, x % 256]

/-- The final state rendered as the 32 digest bytes. -/
def hsBytes (s : Hs) : List Nat :=
  wordBytes s.a ++ wordBytes s.b ++ wordBytes s.c ++ wordBytes s.d ++
  wordBytes s.e ++ wordBytes s.f ++ wordBytes s.g ++ wordBytes s.h

/-- SHA-256 of a byte list, as its 32 digest bytes. -/
def sha256 (msg : List Nat) : List Nat :=
  hsBytes ((chunk64 (pad msg)).foldl compressBlock initH)

/-- Sanity check: the FIPS 180-4 test vector for the message "abc",
digest bytes written in decimal. -/
theorem sha256_abc :
    sha256 [97, 98, 99] =
      [186, 120, 22, 191, 143, 1, 207, 234, 65, 65, 64, 222, 93, 174, 34, 35,
       176, 3, 97, 163, 150, 23, 122, 156, 180, 16, 255, 97, 242, 0, 21,
       173] := by
  decide

/-- Every SHA-256 digest is exactly 32 bytes. -/
theorem sha256_length (msg : List Nat) : (sha256 msg).length = 32 := by
  simp [sha256, hsBytes, wordBytes]

end Sha256

namespace Bolt

/-! Delegation and revocation messages (`bolt-cli` `delegate` command).
BLS public keys are carried as their byte strings; the digest methods feed the
hasher the action byte, the validator pubkey bytes, and the delegatee pubkey
bytes, in that order. -/

/-- The discriminants of the Rust `SignedMessageAction` enum (`repr(u8)` with
implicit values): `Delegation` is 0, `Revocation` is 1. -/
def actionDelegation : Nat := 0

/-- The `Revocation` discriminant of `SignedMessageAction`. -/
def actionRevocation : Nat := 1

/-- The `DelegationMessage` struct: an action byte and two BLS pubkeys. -/
structure DelegationMessage where
  action : Nat
  validator_pubkey : List Nat
  delegatee_pubkey : List Nat
deriving DecidableEq, Repr

/-- The `RevocationMessage` struct: an action byte and two BLS pubkeys. -/
structure RevocationMessage where
  action : Nat
  validator_pubkey : List Nat
  delegatee_pubkey : List Nat
deriving DecidableEq, Repr

/-- The `DelegationMessage::new` constructor: sets the action byte to the
`Delegation` discriminant. -/
def DelegationMessage.new (validator_pubkey delegatee_pubkey : List Nat) :
    DelegationMessage :=
  { action := actionDelegation, validator_pubkey, delegatee_pubkey }

/-- The `DelegationMessage::digest` method: SHA-256 over the hasher updates
`[action]`, validator pubkey bytes, delegatee pubkey bytes — incremental
hashing of those updates is the hash of their concatenation. -/
def DelegationMessage.digest (m : DelegationMessage) : List Nat :=
  Sha256.sha256 ([m.action] ++ m.validator_pubkey ++ m.delegatee_pubkey)

/-- The `RevocationMessage::new` constructor: sets the action byte to the
`Revocation` discriminant. -/
def RevocationMessage.new (validator_pubkey delegatee_pubkey : List Nat) :
    RevocationMessage :=
  { action := actionRevocation, validator_pubkey, delegatee_pubkey }

/-- The `RevocationMessage::digest` method. -/
def RevocationMessage.digest (m : RevocationMessage) : List Nat :=
  Sha256.sha256 ([m.action] ++ m.validator_pubkey ++ m.delegatee_pubkey)

/-! Constraints messages (`bolt-sidecar` `primitives/constraint.rs`).
A transaction enters the digests only through its 32-byte hash (BLS digest)
or its envelope encoding (ECDSA digest), so it is modelled by those two byte
strings. -/

/-- A signed transaction, abstracted to the two byte strings the digests
consume: its transaction hash and its envelope encoding. -/
structure FullTransaction where
  hash : List Nat
  envelope_encoded : List Nat
deriving DecidableEq, Repr

/-- The `ConstraintsMessage` struct. -/
structure ConstraintsMessage where
  pubkey : List Nat
  slot : Nat
  top : Bool
  transactions : List FullTransaction
deriving DecidableEq, Repr

/-- A `u64` as its eight little-endian bytes (`u64::to_le_bytes`). -/
def u64ToLeBytes (n : Nat) : List Nat :=
  [n % 256, n / 256 % 256, n / 65536 % 256, n / 16777216 % 256,
   n / 4294967296 % 256, n / 1099511627776 % 256,
   n / 281474976710656 % 256, n / 72057594037927936 % 256]

/-- A Rust `bool` cast `as u8`: `true` is 1, `false` is 0. -/
def boolToByte : Bool → Nat
  | true => 1
  | false => 0

/-- The byte string fed to SHA-256 by `SignableBLS::digest` for a
`ConstraintsMessage`: pubkey bytes, slot as little-endian u64, the `top` flag
as one byte, then each transaction's hash in list order (the `for` loop of
hasher updates). -/
def ConstraintsMessage.blsPreimage (m : ConstraintsMessage) : List Nat :=
  m.transactions.foldl (fun acc tx => acc ++ tx.hash)
    (m.pubkey ++ u64ToLeBytes m.slot ++ [boolToByte m.top])

/-- `SignableBLS::digest` for `ConstraintsMessage`. -/
def ConstraintsMessage.blsDigest (m : ConstraintsMessage) : List Nat :=
  Sha256.sha256 m.blsPreimage

/-- The byte string hashed by `SignableECDSA::digest` for a
`ConstraintsMessage`: pubkey bytes, slot as little-endian u64, then the
concatenated envelope encodings of the transactions. The `top` flag is not
part of this data. -/
def ConstraintsMessage.ecdsaPreimage (m : ConstraintsMessage) : List Nat :=
  m.pubkey ++ u64ToLeBytes m.slot ++
    m.transactions.foldl (fun acc tx => acc ++ tx.envelope_encoded) []

/-- `SignableECDSA::digest` for `ConstraintsMessage`, parametrised by the
keccak-256 compression (the claims only constrain the bytes fed to it). -/
def ConstraintsMessage.ecdsaDigest (keccak256 : List Nat → List Nat)
    (m : ConstraintsMessage) : List Nat :=
  keccak256 m.ecdsaPreimage

/-- Folding list-append of a projection over a list is the initial segment
followed by the concatenation of the projected pieces. -/
theorem foldl_append_eq {α : Type} (f : α → List Nat) :
    ∀ (l : List α) (acc : List Nat),
      l.foldl (fun a x => a ++ f x) acc = acc ++ (l.map f).flatten := by
  intro l
  induction l with
  | nil => intro acc; simp
  | cons x xs ih => intro acc; simp [ih, List.append_assoc]

/-! Transaction cost and validation (`bolt-sidecar` `common.rs`). -/

/-- The modulus of Rust `u128` arithmetic. -/
def U128 : Nat := 2 ^ 128

/-- The modulus of `U256` arithmetic. -/
def U256 : Nat := 2 ^ 256

/-- The largest `u128` value, `u128::MAX`. -/
def UINT128_MAX : Nat := 2 ^ 128 - 1

/-- The EIP-4844 fields of a pooled transaction that `max_transaction_cost`
reads: `max_fee_per_blob_gas` (u128) and `blob_gas()` (u64). -/
structure Eip4844Part where
  max_fee_per_blob_gas : Nat
  blob_gas : Nat
deriving DecidableEq, Repr

/-- A pooled transaction, abstracted to the accessor values
`max_transaction_cost` and `validate_transaction` read. `max_fee_per_gas` is
the u128 returned by the accessor (the gas price, for legacy transactions);
`max_priority_fee_per_gas` is `none` when the transaction type has no such
field; `eip4844` is `some` exactly for blob transactions. -/
structure PooledTx where
  nonce : Nat
  gas_limit : Nat
  max_fee_per_gas : Nat
  max_priority_fee_per_gas : Option Nat
  eip4844 : Option Eip4844Part
  value : Nat
deriving DecidableEq, Repr

/-- The `max_transaction_cost` function, with Rust release-mode wrapping at
each machine operation: the `fee_cap` additions and the
`gas_limit * fee_cap` product are u128 operations (mod `2 ^ 128`) and the
final addition of the transaction value is a `U256` operation
(mod `2 ^ 256`). -/
def max_transaction_cost (tx : PooledTx) : Nat :=
  let gas_limit := tx.gas_limit
  let fee_cap := tx.max_fee_per_gas
  let fee_cap := (fee_cap + tx.max_priority_fee_per_gas.getD 0) % U128
  let fee_cap :=
    match tx.eip4844 with
    | some e => (fee_cap + (e.max_fee_per_blob_gas + e.blob_gas) % U128) % U128
    | none => fee_cap
  (gas_limit * fee_cap % U128 + tx.value) % U256

/-- Modelled from the spec: the cost formula of §4.2 read over exact
integers — `fee_cap · gas_limit + value` with
`fee_cap = max_fee_per_gas + max_priority_fee_per_gas (default 0)`, plus
`max_fee_per_blob_gas + blob_gas_used` for blob transactions. Used to compare
the code's wrapped arithmetic against the claim's formula. -/
def max_transaction_cost_spec (tx : PooledTx) : Nat :=
  let blob :=
    match tx.eip4844 with
    | some e => e.max_fee_per_blob_gas + e.blob_gas
    | none => 0
  (tx.max_fee_per_gas + tx.max_priority_fee_per_gas.getD 0 + blob) * tx.gas_limit
    + tx.value

/-- The exact (unwrapped) fee cap of a transaction, used to phrase the
no-overflow side conditions. -/
def feeCapExact (tx : PooledTx) : Nat :=
  tx.max_fee_per_gas + tx.max_priority_fee_per_gas.getD 0 +
    (match tx.eip4844 with
     | some e => e.max_fee_per_blob_gas + e.blob_gas
     | none => 0)

/-- The cached account state consulted by the validator:
`{ transaction_count, balance, has_code }`. -/
structure AccountState where
  transaction_count : Nat
  balance : Nat
  has_code : Bool
deriving DecidableEq, Repr

/-- The validation failures `validate_transaction` can return (the variants
of `ValidationError` it constructs, with their payloads: the account's
transaction count and the transaction's nonce for the nonce errors). -/
inductive ValidationError where
  | NonceTooLow (transaction_count nonce : Nat)
  | NonceTooHigh (transaction_count nonce : Nat)
  | InsufficientBalance
  | AccountHasCode
deriving DecidableEq, Repr

/-- The `validate_transaction` function: nonce-too-low, nonce-too-high,
insufficient-balance, account-has-code, in that order. -/
def validate_transaction (account_state : AccountState) (transaction : PooledTx) :
    Except ValidationError Unit :=
  if transaction.nonce < account_state.transaction_count then
    .error (.NonceTooLow account_state.transaction_count transaction.nonce)
  else if transaction.nonce > account_state.transaction_count then
    .error (.NonceTooHigh account_state.transaction_count transaction.nonce)
  else if max_transaction_cost transaction > account_state.balance then
    .error .InsufficientBalance
  else if account_state.has_code then
    .error .AccountHasCode
  else
    .ok ()

/-! Base-fee projection (`bolt-sidecar` `common.rs`). -/

/-- One application of the EIP-1559 +12.5% rule as the code computes it:
`b * 1125 / 1000 + 1` (flooring division, plus one to round up). -/
def basefeeStep (b : Nat) : Nat := b * 1125 / 1000 + 1

/-- The `calculate_max_basefee` function: iterate the +12.5% rule
`block_diff` times, returning `none` as soon as the pending multiplication
`b * 1125` would overflow u128 (the code's guard `b > u128::MAX / 1125`). -/
def calculate_max_basefee (current : Nat) : Nat → Option Nat
  | 0 => some current
  | block_diff + 1 =>
      if current > UINT128_MAX / 1125 then none
      else calculate_max_basefee (basefeeStep current) block_diff

/-! Preconfirmation pricing input validation (`bolt-sidecar`
`state/pricing.rs`). -/

/-- The `PricingError` variants, with their payloads. -/
inductive PricingError where
  | ExceedsBlockLimit (preconfirmed limit : Nat)
  | InsufficientGas (requested available : Nat)
  | InvalidGasLimit (incoming_gas : Nat)
deriving DecidableEq, Repr

/-- The `validate_fee_inputs` function: exceeds-block-limit, then
invalid-gas-limit, then insufficient-gas, in that order. -/
def validate_fee_inputs (incoming_gas preconfirmed_gas gas_limit : Nat) :
    Except PricingError Unit :=
  if preconfirmed_gas ≥ gas_limit then
    .error (.ExceedsBlockLimit preconfirmed_gas gas_limit)
  else if incoming_gas = 0 then
    .error (.InvalidGasLimit incoming_gas)
  else if incoming_gas > gas_limit - preconfirmed_gas then
    .error (.InsufficientGas incoming_gas (gas_limit - preconfirmed_gas))
  else
    .ok ()

/-! Engine JWT secret parsing (`bolt-sidecar` `common.rs`,
`impl From<&str> for JwtSecretConfig`). Strings are their UTF-8 byte lists
(so `str::len` is the list length, as in Rust); the byte 48 is `0` and 120 is
`x`. The file system is a map from paths to the contents of existing,
readable files. -/

/-- Rust `str::trim_start_matches("0x")`: remove every leading occurrence of
the two bytes `0x`. -/
def trimStart0x : List Nat → List Nat
  | 48 :: 120 :: rest => trimStart0x rest
  | l => l

/-- The string the `From<&str>` conversion derives from its input before the
length assertion: strip leading `0x`s if the input starts with `0x`; else
read and strip the file at that path if one exists; else the input itself. -/
def jwtCandidate (fs : List Nat → Option (List Nat)) (jwt : List Nat) :
    List Nat :=
  if jwt.take 2 = [48, 120] then trimStart0x jwt
  else
    match fs jwt with
    | some contents => trimStart0x contents
    | none => jwt

/-- The `From<&str>` conversion for `JwtSecretConfig`: `none` models the
panic of the failed 64-length assertion, `some` the accepted secret. -/
def jwtSecretConfigFrom (fs : List Nat → Option (List Nat))
    (jwt : List Nat) : Option (List Nat) :=
  let s := jwtCandidate fs jwt
  if s.length = 64 then some s else none

/-- Whether a byte is the UTF-8 encoding of a hexadecimal digit
(`0`-`9`, `a`-`f`, `A`-`F`). -/
def isHexDigit (b : Nat) : Bool :=
  (48 ≤ b && b ≤ 57) || (97 ≤ b && b ≤ 102) || (65 ≤ b && b ≤ 70)

/-- Modelled from the spec: a 64-hex-character string. -/
def is64HexString (s : List Nat) : Bool :=
  s.length = 64 && s.all isHexDigit

/-- Modelled from the spec: the claim's acceptance predicate — the input is a
64-hex-character string (optionally `0x`-prefixed), or a path to an existing
file containing such a string. -/
def jwtSpecAccepts (fs : List Nat → Option (List Nat))
    (jwt : List Nat) : Bool :=
  is64HexString jwt ||
  (jwt.take 2 = [48, 120] && is64HexString (jwt.drop 2)) ||
  (match fs jwt with
   | some contents =>
       is64HexString contents ||
       (contents.take 2 = [48, 120] && is64HexString (contents.drop 2))
   | none => false)

/-! Claim theorems. -/

/-- C2: `validate_transaction` returns nonce-too-low exactly when the nonce is
below the account's transaction count; otherwise nonce-too-high exactly when
it is above; otherwise insufficient-balance exactly when the max transaction
cost exceeds the balance; otherwise account-has-code exactly when the account
has code; and otherwise `Ok(())` — the checks in exactly that order. -/
theorem validate_transaction_error_order (a : AccountState) (tx : PooledTx) :
    (validate_transaction a tx =
        .error (.NonceTooLow a.transaction_count tx.nonce) ↔
      tx.nonce < a.transaction_count) ∧
    (validate_transaction a tx =
        .error (.NonceTooHigh a.transaction_count tx.nonce) ↔
      tx.nonce > a.transaction_count) ∧
    (validate_transaction a tx = .error .InsufficientBalance ↔
      tx.nonce = a.transaction_count ∧
        max_transaction_cost tx > a.balance) ∧
    (validate_transaction a tx = .error .AccountHasCode ↔
      tx.nonce = a.transaction_count ∧ max_transaction_cost tx ≤ a.balance ∧
        a.has_code = true) ∧
    (validate_transaction a tx = .ok () ↔
      tx.nonce = a.transaction_count ∧ max_transaction_cost tx ≤ a.balance ∧
        a.has_code = false) := by
  unfold validate_transaction
  split_ifs with h1 h2 h3 h4 <;> simp_all <;> omega

/-- Witness for C2 at a concrete account and transaction. -/
theorem validate_transaction_error_order_witness :
    validate_transaction
        { transaction_count := 5, balance := 0, has_code := false }
        { nonce := 3, gas_limit := 0, max_fee_per_gas := 0,
          max_priority_fee_per_gas := none, eip4844 := none, value := 0 } =
      .error (.NonceTooLow 5 3) :=
  (validate_transaction_error_order
    { transaction_count := 5, balance := 0, has_code := false }
    { nonce := 3, gas_limit := 0, max_fee_per_gas := 0,
      max_priority_fee_per_gas := none, eip4844 := none, value := 0 }).1.mpr
    (by decide)

/-- C6: `validate_fee_inputs` fails with exceeds-block-limit exactly when
`UG ≥ L`, else invalid-gas-limit exactly when `IG = 0`, else insufficient-gas
(with requested `IG` and available `L - UG`) exactly when `IG > L - UG`, and
succeeds otherwise — the checks in that order, each with a distinct error. -/
theorem validate_fee_inputs_error_order (ig ug L : Nat) :
    (validate_fee_inputs ig ug L = .error (.ExceedsBlockLimit ug L) ↔
      ug ≥ L) ∧
    (validate_fee_inputs ig ug L = .error (.InvalidGasLimit ig) ↔
      ug < L ∧ ig = 0) ∧
    (validate_fee_inputs ig ug L = .error (.InsufficientGas ig (L - ug)) ↔
      ug < L ∧ ig ≠ 0 ∧ ig > L - ug) ∧
    (validate_fee_inputs ig ug L = .ok () ↔
      ug < L ∧ ig ≠ 0 ∧ ig ≤ L - ug) := by
  unfold validate_fee_inputs
  split_ifs with h1 h2 h3 <;> simp_all

/-- Witness for C6 at the concrete inputs of the repository's own test. -/
theorem validate_fee_inputs_error_order_witness :
    validate_fee_inputs 15000001 15000000 30000000 =
      .error (.InsufficientGas 15000001 15000000) :=
  (validate_fee_inputs_error_order 15000001 15000000 30000000).2.2.1.mpr
    (by decide)

/-- The overflow guard of `calculate_max_basefee` triggers exactly when the
pending multiplication by 1125 would exceed `u128::MAX`. -/
theorem basefee_guard_iff (b : Nat) :
    b > UINT128_MAX / 1125 ↔ UINT128_MAX < b * 1125 := by
  unfold UINT128_MAX
  rw [gt_iff_lt, Nat.div_lt_iff_lt_mul (by norm_num)]

/-- C4: `calculate_max_basefee` equals `n` iterations of
`b ← ⌊b · 1125 / 1000⌋ + 1`, returning `none` exactly when some step's
multiplication `b · 1125` would overflow 128-bit unsigned arithmetic, and in
particular maps `(10_000_000_000, 9)` to `some 28_865_075_793`. -/
theorem calculate_max_basefee_spec :
    (∀ b n, calculate_max_basefee b n =
      if ∀ k, k < n → basefeeStep^[k] b * 1125 ≤ UINT128_MAX then
        some (basefeeStep^[n] b)
      else none) ∧
    calculate_max_basefee 10000000000 9 = some 28865075793 := by
  constructor
  · intro b n
    induction n generalizing b with
    | zero => simp [calculate_max_basefee]
    | succ n ih =>
        rw [calculate_max_basefee]
        by_cases h : b > UINT128_MAX / 1125
        · rw [if_pos h, if_neg]
          intro hall
          have h0 := hall 0 (Nat.succ_pos n)
          rw [Function.iterate_zero_apply] at h0
          exact absurd h0 (Nat.not_le.mpr (basefee_guard_iff b |>.mp h))
        · have hb : b * 1125 ≤ UINT128_MAX :=
            Nat.not_lt.mp (fun hlt => h (basefee_guard_iff b |>.mpr hlt))
          rw [if_neg h, ih]
          have hiff :
              (∀ k, k < n → basefeeStep^[k] (basefeeStep b) * 1125 ≤
                 UINT128_MAX) ↔
              (∀ k, k < n + 1 → basefeeStep^[k] b * 1125 ≤ UINT128_MAX) := by
            constructor
            · intro hall k hk
              cases k with
              | zero => simpa using hb
              | succ k =>
                  rw [Function.iterate_succ_apply]
                  exact hall k (by omega)
            · intro hall k hk
              have hs := hall (k + 1) (by omega)
              rwa [Function.iterate_succ_apply] at hs
          rw [show basefeeStep^[n] (basefeeStep b) = basefeeStep^[n + 1] b from
                (Function.iterate_succ_apply basefeeStep n b).symm]
          exact if_congr hiff rfl rfl
  · decide

/-- Witness for C4: the concrete projection of the repository's own test. -/
theorem calculate_max_basefee_spec_witness :
    calculate_max_basefee 10000000000 9 = some 28865075793 :=
  calculate_max_basefee_spec.2

/-- C7: the digest of a delegation or revocation message is the 32-byte
SHA-256 hash of the action byte followed by the validator pubkey bytes and
the delegatee pubkey bytes, with action byte 0 for `DelegationMessage::new`
and 1 for `RevocationMessage::new`. -/
theorem delegation_revocation_digest_spec (v d : List Nat) :
    (DelegationMessage.new v d).digest = Sha256.sha256 (0 :: (v ++ d)) ∧
    (RevocationMessage.new v d).digest = Sha256.sha256 (1 :: (v ++ d)) ∧
    ((DelegationMessage.new v d).digest).length = 32 ∧
    ((RevocationMessage.new v d).digest).length = 32 := by
  refine ⟨?_, ?_, ?_, ?_⟩ <;>
    simp [DelegationMessage.new, RevocationMessage.new,
      DelegationMessage.digest, RevocationMessage.digest, actionDelegation,
      actionRevocation, Sha256.sha256_length]

/-- C8: the BLS digest of a constraints message is the 32-byte SHA-256 hash
of the pubkey bytes, the slot as eight little-endian bytes, the `top` flag as
one byte, and the concatenated transaction hashes in list order. -/
theorem constraints_bls_digest_spec (m : ConstraintsMessage) :
    m.blsDigest =
      Sha256.sha256 (m.pubkey ++ u64ToLeBytes m.slot ++ [boolToByte m.top] ++
        (m.transactions.map FullTransaction.hash).flatten) ∧
    m.blsDigest.length = 32 := by
  constructor
  · simp [ConstraintsMessage.blsDigest, ConstraintsMessage.blsPreimage,
      foldl_append_eq, List.append_assoc]
  · exact Sha256.sha256_length _

/-- C10: two constraints messages equal except for the `top` flag share the
same ECDSA digest (for any keccak compression), while the byte strings their
BLS digests hash differ — the ECDSA digest ignores `top`, the BLS preimage
includes it. -/
theorem ecdsa_digest_ignores_top (keccak : List Nat → List Nat)
    (m1 m2 : ConstraintsMessage) (hpk : m1.pubkey = m2.pubkey)
    (hslot : m1.slot = m2.slot) (htxs : m1.transactions = m2.transactions)
    (htop : m1.top ≠ m2.top) :
    ConstraintsMessage.ecdsaDigest keccak m1 =
      ConstraintsMessage.ecdsaDigest keccak m2 ∧
    m1.blsPreimage ≠ m2.blsPreimage := by
  constructor
  · simp [ConstraintsMessage.ecdsaDigest, ConstraintsMessage.ecdsaPreimage,
      hpk, hslot, htxs]
  · intro heq
    rw [ConstraintsMessage.blsPreimage, ConstraintsMessage.blsPreimage,
      foldl_append_eq, foldl_append_eq, hpk, hslot, htxs] at heq
    simp only [List.append_assoc, List.append_cancel_left_eq,
      List.cons_append, List.cons.injEq] at heq
    cases hm1 : m1.top <;> cases hm2 : m2.top <;>
      simp_all [boolToByte]

/-- A concrete top-of-block constraints message, for the C10 witness. -/
def msgTopTrue : ConstraintsMessage :=
  { pubkey := [], slot := 0, top := true, transactions := [] }

/-- The same message with the `top` flag cleared, for the C10 witness. -/
def msgTopFalse : ConstraintsMessage :=
  { pubkey := [], slot := 0, top := false, transactions := [] }

/-- Witness for C10 at a concrete pair of messages differing only in `top`. -/
theorem ecdsa_digest_ignores_top_witness :
    ConstraintsMessage.ecdsaDigest id msgTopTrue =
      ConstraintsMessage.ecdsaDigest id msgTopFalse ∧
    msgTopTrue.blsPreimage ≠ msgTopFalse.blsPreimage :=
  ecdsa_digest_ignores_top id msgTopTrue msgTopFalse rfl rfl rfl (by decide)

/-- A transaction whose fee fields make the u128 fee-cap addition wrap, for
the C3 counterexample: both fee components are `2 ^ 127`, so their u128 sum
is 0 and the computed cost collapses to the transaction value. -/
def overflowTx : PooledTx :=
  { nonce := 0, gas_limit := 1, max_fee_per_gas := 2 ^ 127,
    max_priority_fee_per_gas := some (2 ^ 127), eip4844 := none, value := 0 }

/-- C3 counterexample: at `overflowTx` — a transaction whose fields are all
in range for their Rust types — the code computes cost 0 while the claimed
formula `fee_cap · gas_limit + value` gives `2 ^ 128`. -/
theorem max_transaction_cost_overflow_counterexample :
    overflowTx.gas_limit < 2 ^ 64 ∧ overflowTx.max_fee_per_gas < 2 ^ 128 ∧
    overflowTx.max_priority_fee_per_gas.getD 0 < 2 ^ 128 ∧
    overflowTx.value < 2 ^ 256 ∧
    max_transaction_cost overflowTx = 0 ∧
    max_transaction_cost_spec overflowTx = 2 ^ 128 ∧
    max_transaction_cost overflowTx ≠ max_transaction_cost_spec overflowTx := by
  decide

/-- C3 amended: whenever none of the machine operations overflows — the exact
fee cap fits in u128, so does its product with the gas limit, and the final
sum fits in `U256` — `max_transaction_cost` equals the claimed formula
`fee_cap · gas_limit + value`, with the blob fee and blob gas summed into the
fee cap for blob transactions. -/
theorem max_transaction_cost_no_overflow (tx : PooledTx)
    (hcap : feeCapExact tx < 2 ^ 128)
    (hmul : tx.gas_limit * feeCapExact tx < 2 ^ 128)
    (hsum : tx.gas_limit * feeCapExact tx + tx.value < 2 ^ 256) :
    max_transaction_cost tx = max_transaction_cost_spec tx := by
  cases h4 : tx.eip4844 with
  | none =>
      simp only [feeCapExact, h4, Nat.add_zero] at hcap hmul hsum
      simp only [max_transaction_cost, max_transaction_cost_spec, h4, U128,
        U256, Nat.add_zero]
      rw [Nat.mod_eq_of_lt hcap, Nat.mod_eq_of_lt hmul,
        Nat.mod_eq_of_lt hsum, Nat.mul_comm]
  | some e =>
      simp only [feeCapExact, h4] at hcap hmul hsum
      simp only [max_transaction_cost, max_transaction_cost_spec, h4, U128,
        U256]
      have hpf : tx.max_fee_per_gas + tx.max_priority_fee_per_gas.getD 0 <
          2 ^ 128 := by omega
      have hbg : e.max_fee_per_blob_gas + e.blob_gas < 2 ^ 128 := by omega
      rw [Nat.mod_eq_of_lt hpf, Nat.mod_eq_of_lt hbg, Nat.mod_eq_of_lt hcap,
        Nat.mod_eq_of_lt hmul, Nat.mod_eq_of_lt hsum, Nat.mul_comm]

/-- A small in-range blob transaction, for the C3 amended witness. -/
def smallBlobTx : PooledTx :=
  { nonce := 0, gas_limit := 21000, max_fee_per_gas := 100,
    max_priority_fee_per_gas := some 10,
    eip4844 := some { max_fee_per_blob_gas := 5, blob_gas := 131072 },
    value := 7 }

/-- Witness for the C3 amended theorem at a concrete blob transaction. -/
theorem max_transaction_cost_no_overflow_witness :
    max_transaction_cost smallBlobTx = max_transaction_cost_spec smallBlobTx :=
  max_transaction_cost_no_overflow smallBlobTx (by decide) (by decide)
    (by decide)

/-- The empty file system, for the C9 witnesses: no path exists. -/
def jwtNoFs : List Nat → Option (List Nat) := fun _ => none

/-- Sixty-four `z` bytes (122): the right length, but not hex. -/
def jwtZs : List Nat := List.replicate 64 122

/-- C9 counterexample: the 64-character non-hex string `zz…z` is accepted by
the conversion (no file system entry, no `0x` prefix), yet it is not a
64-hex-character string nor a path to a file containing one — the code checks
only the length, never hex validity. -/
theorem jwt_secret_hex_counterexample :
    (jwtSecretConfigFrom jwtNoFs jwtZs).isSome = true ∧
    jwtSpecAccepts jwtNoFs jwtZs = false := by
  decide

/-- C9 amended: the conversion accepts exactly when the derived candidate
string has length 64 — the input stripped of leading `0x`s when it starts
with `0x`, else the contents of the named file stripped of leading `0x`s when
the file exists, else the input itself. Hex validity is never checked. -/
theorem jwt_secret_length_only (fs : List Nat → Option (List Nat))
    (jwt : List Nat) :
    (jwtSecretConfigFrom fs jwt).isSome = true ↔
      ((jwt.take 2 = [48, 120] ∧ (trimStart0x jwt).length = 64) ∨
       (jwt.take 2 ≠ [48, 120] ∧
         (∃ contents, fs jwt = some contents ∧
           (trimStart0x contents).length = 64)) ∨
       (jwt.take 2 ≠ [48, 120] ∧ fs jwt = none ∧ jwt.length = 64)) := by
  unfold jwtSecretConfigFrom jwtCandidate
  by_cases h0 : jwt.take 2 = [48, 120]
  · simp only [h0, if_true]
    split_ifs with hl <;> simp_all
  · simp only [h0, if_false]
    cases hfs : fs jwt with
    | none => split_ifs with hl <;> simp_all
    | some contents => split_ifs with hl <;> simp_all

/-- Sixty-four `a` bytes (97), a valid all-hex secret. -/
def jwtAs : List Nat := List.replicate 64 97

/-- Witness for the C9 amended theorem: a plain 64-character string with no
`0x` prefix and no file behind it is accepted. -/
theorem jwt_secret_length_only_witness :
    (jwtSecretConfigFrom jwtNoFs jwtAs).isSome = true :=
  (jwt_secret_length_only jwtNoFs jwtAs).mpr
    (Or.inr (Or.inr ⟨by decide, rfl, by decide⟩))

end Bolt
